import Mathlib

/-!
Verification development for the rustling-ontology candidate resolution and
span-disambiguation pipeline.

The repository sources embedded here are:
* src/src/lib.rs — the Parser facade (`Parser::parse`,
  `Parser::parse_with_kind_order`, `build_parser`, `train_parser`);
* src/grammar/src/lib.rs — the language registry (`Lang`, `Lang::from_str`,
  `Lang::to_string`, `rules`, `dims`, `examples`).

The repository modules `mod tagger`, `mod mapper` and `mod parser` referenced
by src/src/lib.rs are not part of the provided sources; the CandidateTagger
selection algorithm and per-candidate resolution are therefore modelled from
the specification (sections 4.2 and 4.3), as noted on each such definition.
The external rustling rule-matching engine and statistical scorer are treated
as an opaque deterministic function supplying the scored parse forest, per
the external-interface contract of the specification (section 6).

Machine floats (the f64 log-probability "probalog") are modelled as `Int`
scores: the pipeline only ever carries and compares them, never does float
arithmetic on them, so any linearly ordered score type is faithful.
-/

namespace RustlingOntology

/-- The closed enumeration of semantic output categories.  Modelled from the
spec: OutputKind lives in the external rustling_ontology_values crate (only
re-exported by src/src/lib.rs); the spec describes it as a closed enumeration
of the semantic categories (Number, Ordinal, Temperature, Duration,
Temporal/DateTime, ...). -/
inductive OutputKind where
  | Number
  | Ordinal
  | Duration
  | Temperature
  | Time
deriving DecidableEq, Repr

/-- The fixed canonical list of all supported output kinds
(`OutputKind::all()` of the values crate, modelled from the spec as the full
default priority order covering all supported kinds). -/
def OutputKind.all : List OutputKind :=
  [.Number, .Ordinal, .Duration, .Temperature, .Time]

/-- The generic intermediate value carried by a parse node ("dimension").
Modelled from the spec: a dimension-tagged union of possible semantic types
(integer, ordinal, temporal, temperature, duration, ...).  A `Time` value
carries an offset relative to the reference instant and an optional grain
(the grain may be under-specified).  `Other` stands for a dimension that maps
to no OutputKind. -/
inductive Dimension where
  | Integer (n : Int)
  | Ordinal (n : Int)
  | Duration (grain : Nat) (n : Int)
  | Temperature (degrees : Int)
  | Time (offset : Int) (grain : Option Nat)
  | Other
deriving DecidableEq, Repr

/-- Modelled from the spec: the mapper (repository module src/mapper.rs, not
in the provided sources) sends each dimension tag to at most one OutputKind;
unmapped dimensions map to none. -/
def mapKind : Dimension → Option OutputKind
  | .Integer _ => some .Number
  | .Ordinal _ => some .Ordinal
  | .Duration _ _ => some .Duration
  | .Temperature _ => some .Temperature
  | .Time _ _ => some .Time
  | .Other => none

/-- The resolution context (`ResolverContext` of the values crate, modelled
from the spec): a reference instant and locale defaults (a default grain for
under-specified temporal expressions).  Immutable during a resolution pass. -/
structure ResolverContext where
  reference : Int
  defaultGrain : Option Nat
deriving DecidableEq, Repr

/-- The final strongly-typed output of resolving a candidate, modelled from
the spec: each concrete output corresponds to exactly one OutputKind. -/
structure Output where
  kind : OutputKind
  value : Int
deriving DecidableEq, Repr

/-- Modelled from the spec (section 4.3, Resolver; repository code not in the
provided sources): context-free dimensions resolve by pure structural
coercion; temporal dimensions are grounded against the context's reference
instant, taking the grain from the context when the expression
under-specifies it, and resolution fails (yields no value) when the
expression cannot be grounded; a dimension with no OutputKind yields no
value. -/
def resolve (ctx : ResolverContext) : Dimension → Option Output
  | .Integer n => some ⟨.Number, n⟩
  | .Ordinal n => some ⟨.Ordinal, n⟩
  | .Duration _ n => some ⟨.Duration, n⟩
  | .Temperature d => some ⟨.Temperature, d⟩
  | .Time offset grain =>
    match grain.orElse fun _ => ctx.defaultGrain with
    | some _ => some ⟨.Time, ctx.reference + offset⟩
    | none => none
  | .Other => none

/-- rustling's `ParserMatch<V>` (re-exported by src/src/lib.rs): a span
(byte range and char range, half-open), the structural shape of the parse
tree, a value, the statistical score and the latent flag.  The value type is
a parameter exactly as in the source: the raw forest carries dimensions, the
tagged output carries `Option Output`, the facade's result carries
`Output`. -/
structure ParserMatch (V : Type) where
  byte_range : Nat × Nat
  char_range : Nat × Nat
  parsing_tree_height : Nat
  parsing_tree_num_nodes : Nat
  value : V
  probalog : Int
  latent : Bool
deriving DecidableEq, Repr

/-- Two byte ranges intersect (half-open ranges, as in the spec's
overlapping-candidates definition). -/
def intersects (a b : Nat × Nat) : Prop := a.1 < b.2 ∧ b.1 < a.2

instance (a b : Nat × Nat) : Decidable (intersects a b) := by
  unfold intersects; infer_instance

theorem intersects_symm {a b : Nat × Nat} (h : intersects a b) : intersects b a :=
  ⟨h.2, h.1⟩

end RustlingOntology

namespace RustlingOntology

/-- Enumerates all languages supported for the general purpose ontology
(src/grammar/src/lib.rs, the lang_enum macro instantiated with [EN]). -/
inductive Lang where
  | EN
deriving DecidableEq, Repr

/-- `Lang::all()` from src/grammar/src/lib.rs. -/
def Lang.all : List Lang := [.EN]

/-- Rust's `str::to_uppercase`, modelled character-wise (the language names
involved are ASCII, where the two coincide). -/
def toUppercase (s : String) : String := String.mk (s.data.map Char.toUpper)

/-- `Lang::to_string` from src/grammar/src/lib.rs: each variant prints as its
identifier. -/
def Lang.to_string : Lang → String
  | .EN => "EN"

/-- `Lang::from_str` from src/grammar/src/lib.rs: uppercase the input, match
it against the stringified variant names, otherwise report an unknown
language error. -/
def Lang.from_str (it : String) : Except String Lang :=
  if toUppercase it = "EN" then .ok .EN
  else .error ("Unknown language " ++ it)

/-- A string is a casing variant of another when they agree letter for letter
up to case. -/
def casingOf (s t : String) : Prop := toUppercase s = toUppercase t

instance (s t : String) : Decidable (casingOf s t) := by
  unfold casingOf; infer_instance

/-- An opaque stand-in for rustling rule sets: the per-language grammar is an
external collaborator, only its identity matters here
(src/grammar/src/lib.rs forwards to the external en crate). -/
structure RuleSet where
  langName : String
deriving DecidableEq, Repr

/-- `rules` from src/grammar/src/lib.rs: dispatch on the (closed) Lang enum
and forward the external per-language rule set; the external EN rule set is
represented by its stand-in. -/
def rules : Lang → Except String RuleSet
  | .EN => .ok ⟨"EN"⟩

/-- `examples` from src/grammar/src/lib.rs: dispatch on the closed Lang enum
and forward the external per-language example corpus (represented by its
stand-in, keyed by language).  The return type is a plain list: this
accessor has no error path in the source. -/
def examples : Lang → List String
  | .EN => ["EN-examples"]

end RustlingOntology

namespace RustlingOntology

/-- `CandidateTagger` from src/src/lib.rs (the struct literal built inside
`parse_with_kind_order`): the requested kind-priority order, the resolution
context and the exhaustive-mode flag. -/
structure CandidateTagger where
  output_kind_filter : List OutputKind
  context : ResolverContext
  resolve_all_candidates : Bool

/-- Modelled from the spec (section 4.2 step 3): candidates of a kind are
treated as weighted intervals, weight = statistical score, ties broken by
lower tree height (structurally simpler parses win), then by fewer total
nodes. -/
def weightBefore {V : Type} (a b : ParserMatch V) : Prop :=
  b.probalog < a.probalog ∨
    (a.probalog = b.probalog ∧
      (a.parsing_tree_height < b.parsing_tree_height ∨
        (a.parsing_tree_height = b.parsing_tree_height ∧
          a.parsing_tree_num_nodes ≤ b.parsing_tree_num_nodes)))

instance {V : Type} : DecidableRel (weightBefore (V := V)) := fun a b => by
  unfold weightBefore; infer_instance

/-- Modelled from the spec (section 4.2 step 4): greedily commit candidates,
in the given (descending-weight) order, rejecting any candidate whose byte
range intersects an already-committed interval — whether committed by a
higher-priority kind (already in the accumulator) or earlier within the same
kind.  Returns the grown committed list. -/
def selectNonOverlapping (committed : List (ParserMatch Dimension)) :
    List (ParserMatch Dimension) → List (ParserMatch Dimension)
  | [] => committed
  | c :: rest =>
    if committed.any fun d => decide (intersects d.byte_range c.byte_range) then
      selectNonOverlapping committed rest
    else
      selectNonOverlapping (committed ++ [c]) rest

/-- Modelled from the spec (section 4.2 steps 2-4): process the kinds in
priority order; for each kind sort its eligible candidates by descending
weight and greedily commit the non-overlapping ones on top of what
higher-priority kinds already occupy. -/
def commitKinds (eligible : List (ParserMatch Dimension))
    (committed : List (ParserMatch Dimension)) :
    List OutputKind → List (ParserMatch Dimension)
  | [] => committed
  | k :: rest =>
    commitKinds eligible
      (selectNonOverlapping committed
        (List.insertionSort weightBefore
          (eligible.filter fun m => decide (mapKind m.value = some k))))
      rest

/-- Modelled from the spec (section 4.2; the repository module src/tagger.rs
is not in the provided sources): step 1 discards nodes whose dimension maps
to no kind of the priority list; steps 2-4 commit a non-overlapping set by
kind priority and descending weight; in exhaustive mode (step 5) every
eligible node that does not conflict with a strictly higher-priority
committed interval is retained (which by step 6 also drops nodes contained
in a higher-priority committed span), otherwise only the committed intervals
are kept.  The spec's re-marking of extra exhaustive-mode alternatives as
latent is not modelled: every claim under verification runs with
`resolve_all_candidates = false`. -/
def CandidateTagger.tag (t : CandidateTagger)
    (forest : List (ParserMatch Dimension)) : List (ParserMatch Dimension) :=
  let eligible := forest.filter fun m =>
    match mapKind m.value with
    | some k => t.output_kind_filter.contains k
    | none => false
  if t.resolve_all_candidates then
    eligible.filter fun m =>
      match mapKind m.value with
      | some km =>
        let higher := commitKinds eligible []
          (t.output_kind_filter.takeWhile fun k => k ≠ km)
        !(higher.any fun d => decide (intersects d.byte_range m.byte_range))
      | none => false
  else
    commitKinds eligible [] t.output_kind_filter

/-- Spans are compared by their byte-range start ("sorted by ascending span
start"). -/
def spanLE {V : Type} (a b : ParserMatch V) : Prop :=
  a.byte_range.1 ≤ b.byte_range.1

instance {V : Type} : DecidableRel (spanLE (V := V)) := fun a b => by
  unfold spanLE; infer_instance

instance {V : Type} : IsTotal (ParserMatch V) spanLE :=
  ⟨fun a b => Nat.le_total a.byte_range.1 b.byte_range.1⟩

instance {V : Type} : IsTrans (ParserMatch V) spanLE :=
  ⟨fun _ _ _ hab hbc => Nat.le_trans hab hbc⟩

/-- Resolve a tagged candidate against the context, keeping every other field
of the match unchanged. -/
def resolveMatch (ctx : ResolverContext) (m : ParserMatch Dimension) :
    ParserMatch (Option Output) :=
  { byte_range := m.byte_range
    char_range := m.char_range
    parsing_tree_height := m.parsing_tree_height
    parsing_tree_num_nodes := m.parsing_tree_num_nodes
    value := resolve ctx m.value
    probalog := m.probalog
    latent := m.latent }

/-- The `Parser` struct of src/src/lib.rs wraps the raw rustling parser
(rule set, trained scorer model and feature extractor).  That external
engine is modelled, per the spec's external-interface contract (section 6),
as a deterministic function from the input text to the scored parse forest,
or to an engine error. -/
structure Parser where
  rawForest : String → Except String (List (ParserMatch Dimension))

/-- Modelled from the spec: the external rustling `Parser::parse(input,
tagger)` call made by src/src/lib.rs — produce the scored forest for the
text, prune it through the CandidateTagger (section 4.2), resolve each
surviving candidate per-candidate (section 4.3, failures yielding no value
rather than an error), and return the matches sorted by ascending span
start. -/
def Parser.rawParse (p : Parser) (input : String) (t : CandidateTagger) :
    Except String (List (ParserMatch (Option Output))) :=
  (p.rawForest input).map fun forest =>
    (List.insertionSort spanLE (t.tag forest)).map (resolveMatch t.context)

/-- Rebuild a `ParserMatch` around a resolved value, copying every other
field — the struct literal of src/src/lib.rs lines 69-77. -/
def withValue (m : ParserMatch (Option Output)) (v : Output) :
    ParserMatch Output :=
  { byte_range := m.byte_range
    char_range := m.char_range
    parsing_tree_height := m.parsing_tree_height
    parsing_tree_num_nodes := m.parsing_tree_num_nodes
    value := v
    probalog := m.probalog
    latent := m.latent }

/-- `Parser::parse_with_kind_order` from src/src/lib.rs: build a
CandidateTagger over the requested order with `resolve_all_candidates =
false`, run the raw parse (propagating an engine error with `?`), then
filter-map the matches, keeping exactly those whose value resolved to
something and rebuilding the match around the unwrapped value. -/
def Parser.parse_with_kind_order (p : Parser) (input : String)
    (context : ResolverContext) (order : List OutputKind) :
    Except String (List (ParserMatch Output)) :=
  let tagger : CandidateTagger :=
    { output_kind_filter := order
      context := context
      resolve_all_candidates := false }
  (p.rawParse input tagger).map fun ms =>
    ms.filterMap fun m =>
      match m.value with
      | some v => some (withValue m v)
      | none => none

/-- `Parser::parse` from src/src/lib.rs: delegate to
`parse_with_kind_order` with the full canonical kind list. -/
def Parser.parse (p : Parser) (input : String) (context : ResolverContext) :
    Except String (List (ParserMatch Output)) :=
  p.parse_with_kind_order input context OutputKind.all

end RustlingOntology

deriving instance DecidableEq for Except

namespace RustlingOntology

/-- A resolution context whose locale supplies a default grain, used as a
concrete evaluation point. -/
def ctx0 : ResolverContext := { reference := 100, defaultGrain := some 4 }

/-- A resolution context with no default grain, under which an
under-specified temporal expression cannot be grounded. -/
def ctxN : ResolverContext := { reference := 100, defaultGrain := none }

/-- A concrete forest node: an integer candidate over bytes [0, 10). -/
def m21 : ParserMatch Dimension :=
  { byte_range := (0, 10), char_range := (0, 10), parsing_tree_height := 2,
    parsing_tree_num_nodes := 3, value := .Integer 21, probalog := 5,
    latent := false }

/-- A concrete forest node: a grain-less temporal candidate over bytes
[12, 20). -/
def mTime : ParserMatch Dimension :=
  { byte_range := (12, 20), char_range := (12, 20), parsing_tree_height := 3,
    parsing_tree_num_nodes := 4, value := .Time 7 none, probalog := 2,
    latent := false }

/-- A concrete forest node: a high-scoring ordinal candidate over bytes
[4, 14), overlapping both other nodes. -/
def mOrd : ParserMatch Dimension :=
  { byte_range := (4, 14), char_range := (4, 14), parsing_tree_height := 1,
    parsing_tree_num_nodes := 2, value := .Ordinal 3, probalog := 9,
    latent := false }

/-- A concrete parser whose (deterministic) rule-matching engine produces the
three-node forest above for any text. -/
def p0 : Parser := ⟨fun _ => .ok [mTime, m21, mOrd]⟩

/-- The resolved match the pipeline produces from `m21`. -/
def out21 : ParserMatch Output :=
  { byte_range := (0, 10), char_range := (0, 10), parsing_tree_height := 2,
    parsing_tree_num_nodes := 3, value := ⟨.Number, 21⟩, probalog := 5,
    latent := false }

/-- The resolved match the pipeline produces from `mTime` under `ctx0`
(reference 100 plus offset 7). -/
def outTime107 : ParserMatch Output :=
  { byte_range := (12, 20), char_range := (12, 20), parsing_tree_height := 3,
    parsing_tree_num_nodes := 4, value := ⟨.Time, 107⟩, probalog := 2,
    latent := false }

/-- The raw tagged-and-resolved match list for `p0` under `ctxN` with kind
order [Number, Time]: the integer candidate resolves, the grain-less
temporal candidate yields no value. -/
def ms0 : List (ParserMatch (Option Output)) :=
  [{ byte_range := (0, 10), char_range := (0, 10), parsing_tree_height := 2,
     parsing_tree_num_nodes := 3, value := some ⟨.Number, 21⟩, probalog := 5,
     latent := false },
   { byte_range := (12, 20), char_range := (12, 20), parsing_tree_height := 3,
     parsing_tree_num_nodes := 4, value := none, probalog := 2,
     latent := false }]

end RustlingOntology

namespace RustlingOntology

theorem mem_selectNonOverlapping {m : ParserMatch Dimension} :
    ∀ (committed cands : List (ParserMatch Dimension)),
      m ∈ selectNonOverlapping committed cands → m ∈ committed ∨ m ∈ cands := by
  intro committed cands
  induction cands generalizing committed with
  | nil => intro h; exact .inl h
  | cons c rest ih =>
    intro h
    unfold selectNonOverlapping at h
    split at h
    · rcases ih _ h with h | h
      · exact .inl h
      · exact .inr (List.mem_cons_of_mem _ h)
    · rcases ih _ h with h | h
      · rcases List.mem_append.mp h with h | h
        · exact .inl h
        · exact .inr (List.mem_singleton.mp h ▸ List.mem_cons_self _ _)
      · exact .inr (List.mem_cons_of_mem _ h)

theorem pairwise_selectNonOverlapping :
    ∀ (cands committed : List (ParserMatch Dimension)),
      committed.Pairwise (fun a b => ¬ intersects a.byte_range b.byte_range) →
      (selectNonOverlapping committed cands).Pairwise
        (fun a b => ¬ intersects a.byte_range b.byte_range) := by
  intro cands
  induction cands with
  | nil => intro committed h; exact h
  | cons c rest ih =>
    intro committed h
    unfold selectNonOverlapping
    split
    · exact ih _ h
    · rename_i hany
      apply ih
      rw [List.pairwise_append]
      refine ⟨h, List.pairwise_singleton _ _, ?_⟩
      intro a ha b hb
      rw [List.mem_singleton] at hb
      subst hb
      intro hint
      exact hany (List.any_eq_true.mpr ⟨a, ha, decide_eq_true hint⟩)

theorem mem_commitKinds {eligible : List (ParserMatch Dimension)}
    {m : ParserMatch Dimension} :
    ∀ (kinds : List OutputKind) (acc : List (ParserMatch Dimension)),
      m ∈ commitKinds eligible acc kinds →
      m ∈ acc ∨ ∃ k ∈ kinds, mapKind m.value = some k := by
  intro kinds
  induction kinds with
  | nil => intro acc h; exact .inl h
  | cons k rest ih =>
    intro acc h
    unfold commitKinds at h
    rcases ih _ h with h | ⟨k', hk', hmk⟩
    · rcases mem_selectNonOverlapping _ _ h with h | h
      · exact .inl h
      · have hmem := (List.perm_insertionSort weightBefore _).subset h
        have hf := List.mem_filter.mp hmem
        refine .inr ⟨k, List.mem_cons_self _ _, ?_⟩
        exact of_decide_eq_true hf.2
    · exact .inr ⟨k', List.mem_cons_of_mem _ hk', hmk⟩

theorem pairwise_commitKinds {eligible : List (ParserMatch Dimension)} :
    ∀ (kinds : List OutputKind) (acc : List (ParserMatch Dimension)),
      acc.Pairwise (fun a b => ¬ intersects a.byte_range b.byte_range) →
      (commitKinds eligible acc kinds).Pairwise
        (fun a b => ¬ intersects a.byte_range b.byte_range) := by
  intro kinds
  induction kinds with
  | nil => intro acc h; exact h
  | cons k rest ih =>
    intro acc h
    unfold commitKinds
    exact ih _ (pairwise_selectNonOverlapping _ _ h)

/-- In single-answer mode the tagger's output is the committed interval set,
which is pairwise non-intersecting. -/
theorem tag_pairwise (t : CandidateTagger)
    (forest : List (ParserMatch Dimension))
    (hf : t.resolve_all_candidates = false) :
    (t.tag forest).Pairwise
      (fun a b => ¬ intersects a.byte_range b.byte_range) := by
  unfold CandidateTagger.tag
  rw [hf]
  simp only [Bool.false_eq_true, if_false]
  exact pairwise_commitKinds _ _ List.Pairwise.nil

/-- In single-answer mode every tagged node's dimension maps to a kind of
the requested priority list. -/
theorem mem_tag_kind (t : CandidateTagger)
    (forest : List (ParserMatch Dimension)) (m : ParserMatch Dimension)
    (hf : t.resolve_all_candidates = false) (hm : m ∈ t.tag forest) :
    ∃ k ∈ t.output_kind_filter, mapKind m.value = some k := by
  unfold CandidateTagger.tag at hm
  rw [hf] at hm
  simp only [Bool.false_eq_true, if_false] at hm
  rcases mem_commitKinds _ _ hm with h | h
  · cases h
  · exact h

/-- Resolution is kind-sound: a successfully resolved value carries exactly
the OutputKind that the candidate's dimension maps to. -/
theorem resolve_some_kind {ctx : ResolverContext} {d : Dimension} {v : Output}
    (h : resolve ctx d = some v) : mapKind d = some v.kind := by
  cases d with
  | Integer n => cases h; rfl
  | Ordinal n => cases h; rfl
  | Duration g n => cases h; rfl
  | Temperature deg => cases h; rfl
  | Time offset grain =>
    simp only [resolve] at h
    split at h
    · cases h; rfl
    · cases h
  | Other => cases h

/-- Inversion of a successful `parse_with_kind_order` call: the engine
produced a forest and the result is that forest pushed through the tagging,
sorting, resolution and filtering pipeline. -/
theorem parse_with_kind_order_ok (p : Parser) (input : String)
    (ctx : ResolverContext) (order : List OutputKind)
    (out : List (ParserMatch Output))
    (h : p.parse_with_kind_order input ctx order = .ok out) :
    ∃ forest, p.rawForest input = .ok forest ∧
      out = ((List.insertionSort spanLE
          ((CandidateTagger.mk order ctx false).tag forest)).map
            (resolveMatch ctx)).filterMap fun m =>
          match m.value with
          | some v => some (withValue m v)
          | none => none := by
  unfold Parser.parse_with_kind_order Parser.rawParse at h
  cases hf : p.rawForest input with
  | error e => rw [hf] at h; cases h
  | ok forest =>
    rw [hf] at h
    simp only [Except.map] at h
    cases h
    exact ⟨forest, rfl, rfl⟩

/-- An element kept by the facade's filter comes from a match whose value
resolved, and is that match rebuilt around the unwrapped value. -/
theorem keepResolved_eq {m : ParserMatch (Option Output)}
    {m' : ParserMatch Output}
    (h : (match m.value with
          | some v => some (withValue m v)
          | none => none) = some m') :
    m.value = some m'.value ∧ m' = withValue m m'.value := by
  cases hv : m.value with
  | none => rw [hv] at h; cases h
  | some v =>
    rw [hv] at h
    cases h
    exact ⟨rfl, rfl⟩

/-- C1: for every input text and context, the list of Matches returned by a
parse call (which runs the tagger with resolveAllCandidates = false)
contains no two Matches whose byte ranges intersect. -/
theorem parse_matches_non_overlapping (p : Parser) (input : String)
    (ctx : ResolverContext) (out : List (ParserMatch Output))
    (h : p.parse input ctx = .ok out) :
    out.Pairwise fun a b => ¬ intersects a.byte_range b.byte_range := by
  obtain ⟨forest, hf, rfl⟩ :=
    parse_with_kind_order_ok p input ctx OutputKind.all out h
  have h1 := tag_pairwise (CandidateTagger.mk OutputKind.all ctx false)
    forest rfl
  have h2 : (List.insertionSort spanLE
      ((CandidateTagger.mk OutputKind.all ctx false).tag forest)).Pairwise
        (fun a b => ¬ intersects a.byte_range b.byte_range) :=
    ((List.perm_insertionSort spanLE _).pairwise_iff
      fun hab hint => hab (intersects_symm hint)).mpr h1
  have h3 : ((List.insertionSort spanLE
      ((CandidateTagger.mk OutputKind.all ctx false).tag forest)).map
        (resolveMatch ctx)).Pairwise
        (fun a b => ¬ intersects a.byte_range b.byte_range) :=
    List.pairwise_map.mpr (h2.imp fun hab => hab)
  refine List.pairwise_filterMap.mpr (h3.imp ?_)
  intro a a' hna b hb b' hb'
  obtain ⟨-, hb2⟩ := keepResolved_eq (Option.mem_def.mp hb)
  obtain ⟨-, hb2'⟩ := keepResolved_eq (Option.mem_def.mp hb')
  rw [hb2, hb2']
  exact hna

/-- C2: parse(text, context) returns exactly the same result as
parse_with_kind_order(text, context, order) called with the full canonical
list of all OutputKinds. -/
theorem parse_eq_parse_with_all_kinds (p : Parser) (input : String)
    (ctx : ResolverContext) :
    p.parse input ctx = p.parse_with_kind_order input ctx OutputKind.all :=
  rfl

/-- C3: for every input text, context, and kind order, the list of Matches
returned by parse_with_kind_order is sorted by ascending byte-range start. -/
theorem parse_with_kind_order_sorted (p : Parser) (input : String)
    (ctx : ResolverContext) (order : List OutputKind)
    (out : List (ParserMatch Output))
    (h : p.parse_with_kind_order input ctx order = .ok out) :
    out.Pairwise fun a b => a.byte_range.1 ≤ b.byte_range.1 := by
  obtain ⟨forest, hf, rfl⟩ := parse_with_kind_order_ok p input ctx order out h
  have h2 : (List.insertionSort spanLE
      ((CandidateTagger.mk order ctx false).tag forest)).Pairwise spanLE :=
    List.sorted_insertionSort spanLE _
  have h3 : ((List.insertionSort spanLE
      ((CandidateTagger.mk order ctx false).tag forest)).map
        (resolveMatch ctx)).Pairwise
        (fun a b => a.byte_range.1 ≤ b.byte_range.1) :=
    List.pairwise_map.mpr (h2.imp fun hab => hab)
  refine List.pairwise_filterMap.mpr (h3.imp ?_)
  intro a a' hle b hb b' hb'
  obtain ⟨-, hb2⟩ := keepResolved_eq (Option.mem_def.mp hb)
  obtain ⟨-, hb2'⟩ := keepResolved_eq (Option.mem_def.mp hb')
  rw [hb2, hb2']
  exact hle

/-- C4: a candidate whose resolution yielded no value is dropped from the
returned Match list while every sibling candidate with a resolved value is
still returned, and a per-candidate resolution failure never causes the
whole parse call to return an error: whenever the raw tagged parse
succeeds, the facade returns ok, keeps exactly the matches whose value
resolved, and drops the rest. -/
theorem parse_swallows_candidate_failures (p : Parser) (input : String)
    (ctx : ResolverContext) (order : List OutputKind)
    (ms : List (ParserMatch (Option Output)))
    (h : p.rawParse input (CandidateTagger.mk order ctx false) = .ok ms) :
    ∃ out, p.parse_with_kind_order input ctx order = .ok out ∧
      (∀ m ∈ ms, ∀ v, m.value = some v → withValue m v ∈ out) ∧
      (∀ m' ∈ out, ∃ m ∈ ms, m.value = some m'.value) := by
  refine ⟨ms.filterMap fun m =>
    match m.value with
    | some v => some (withValue m v)
    | none => none, ?_, ?_, ?_⟩
  · simp only [Parser.parse_with_kind_order]
    rw [h]
    rfl
  · intro m hm v hv
    refine List.mem_filterMap.mpr ⟨m, hm, ?_⟩
    rw [hv]
  · intro m' hm'
    obtain ⟨m, hm, hg⟩ := List.mem_filterMap.mp hm'
    exact ⟨m, hm, (keepResolved_eq hg).1⟩

/-- C7: if an OutputKind is omitted from the order passed to
parse_with_kind_order, then no Match of that kind appears in the returned
list. -/
theorem parse_with_kind_order_omits_kind (p : Parser) (input : String)
    (ctx : ResolverContext) (order : List OutputKind) (k : OutputKind)
    (out : List (ParserMatch Output)) (hk : k ∉ order)
    (h : p.parse_with_kind_order input ctx order = .ok out) :
    ∀ m ∈ out, m.value.kind ≠ k := by
  obtain ⟨forest, hf, rfl⟩ := parse_with_kind_order_ok p input ctx order out h
  intro m' hm' hkk
  obtain ⟨a, ha, hga⟩ := List.mem_filterMap.mp hm'
  obtain ⟨hval, -⟩ := keepResolved_eq hga
  obtain ⟨d, hd, rfl⟩ := List.mem_map.mp ha
  have hdk : mapKind d.value = some m'.value.kind := resolve_some_kind hval
  have hd' : d ∈ (CandidateTagger.mk order ctx false).tag forest :=
    (List.perm_insertionSort spanLE _).subset hd
  obtain ⟨k', hk', hdk'⟩ :=
    mem_tag_kind (CandidateTagger.mk order ctx false) forest d rfl hd'
  rw [hdk] at hdk'
  cases hdk'
  rw [hkk] at hk'
  exact hk hk'

/-- C8: two calls to parse on the same Parser with identical (text, context)
return identical ordered Match lists: the parse result is a function of the
parser, text and context alone. -/
theorem parse_deterministic (p : Parser) (input : String)
    (ctx : ResolverContext) (r1 r2 : Except String (List (ParserMatch Output)))
    (h1 : p.parse input ctx = r1) (h2 : p.parse input ctx = r2) : r1 = r2 := by
  rw [← h1, ← h2]

/-- C9: string conversion round-trips for every registered language:
Lang::from_str(l.to_string()) returns Ok(l) for every Lang variant l. -/
theorem lang_to_string_from_str_roundtrip (l : Lang) :
    Lang.from_str (Lang.to_string l) = .ok l := by
  cases l
  decide

/-- C5: language lookup by name is case-insensitive — any casing of a
registered language name succeeds — and any string that is no casing of a
registered language name yields an explicit unknown-language error, never a
panic and never a registered-language default. -/
theorem lang_from_str_case_insensitive_unknown_error :
    (∀ s : String, casingOf s (Lang.to_string .EN) →
      Lang.from_str s = .ok .EN) ∧
    (∀ s : String, (∀ l : Lang, ¬ casingOf s (Lang.to_string l)) →
      Lang.from_str s = .error ("Unknown language " ++ s)) := by
  constructor
  · intro s hs
    unfold casingOf at hs
    unfold Lang.from_str
    rw [if_pos (hs.trans (by decide))]
  · intro s hs
    have h1 : ¬ toUppercase s = "EN" := by
      intro hc
      refine hs .EN ?_
      unfold casingOf
      rw [hc]
      decide
    unfold Lang.from_str
    rw [if_neg h1]

/-- C10: every match surviving the resolution filter keeps all fields other
than the value — byte_range, char_range, parsing_tree_height,
parsing_tree_num_nodes, probalog and latent — unchanged from the underlying
raw parse result. -/
theorem parse_preserves_match_frame (p : Parser) (input : String)
    (ctx : ResolverContext) (order : List OutputKind)
    (ms : List (ParserMatch (Option Output)))
    (out : List (ParserMatch Output))
    (h : p.rawParse input (CandidateTagger.mk order ctx false) = .ok ms)
    (h2 : p.parse_with_kind_order input ctx order = .ok out) :
    ∀ m' ∈ out, ∃ m ∈ ms, m.value = some m'.value ∧
      m'.byte_range = m.byte_range ∧ m'.char_range = m.char_range ∧
      m'.parsing_tree_height = m.parsing_tree_height ∧
      m'.parsing_tree_num_nodes = m.parsing_tree_num_nodes ∧
      m'.probalog = m.probalog ∧ m'.latent = m.latent := by
  simp only [Parser.parse_with_kind_order] at h2
  rw [h] at h2
  simp only [Except.map] at h2
  cases h2
  intro m' hm'
  obtain ⟨m, hm, hg⟩ := List.mem_filterMap.mp hm'
  obtain ⟨hv, he⟩ := keepResolved_eq hg
  exact ⟨m, hm, hv, congrArg ParserMatch.byte_range he,
    congrArg ParserMatch.char_range he,
    congrArg ParserMatch.parsing_tree_height he,
    congrArg ParserMatch.parsing_tree_num_nodes he,
    congrArg ParserMatch.probalog he, congrArg ParserMatch.latent he⟩

/-- Concrete witness for C1: the sample parser's full parse keeps the
integer and temporal matches, whose byte ranges do not intersect. -/
theorem parse_matches_non_overlapping_witness :
    p0.parse "x" ctx0 = .ok [out21, outTime107] ∧
    ([out21, outTime107] : List (ParserMatch Output)).Pairwise
      (fun a b => ¬ intersects a.byte_range b.byte_range) :=
  ⟨by decide,
   parse_matches_non_overlapping p0 "x" ctx0 [out21, outTime107] (by decide)⟩

/-- Concrete witness for C3: a successful kind-ordered parse whose output
list is sorted by ascending byte-range start. -/
theorem parse_with_kind_order_sorted_witness :
    p0.parse_with_kind_order "x" ctxN [OutputKind.Number, OutputKind.Time] =
      .ok [out21] ∧
    ([out21] : List (ParserMatch Output)).Pairwise
      (fun a b => a.byte_range.1 ≤ b.byte_range.1) :=
  ⟨by decide,
   parse_with_kind_order_sorted p0 "x" ctxN
     [OutputKind.Number, OutputKind.Time] [out21] (by decide)⟩

/-- Concrete witness for C4: under a context with no default grain the
temporal candidate fails to resolve, yet the parse succeeds and still
returns the resolved integer sibling. -/
theorem parse_swallows_candidate_failures_witness :
    p0.rawParse "x"
      (CandidateTagger.mk [OutputKind.Number, OutputKind.Time] ctxN false) =
      .ok ms0 ∧
    ∃ out, p0.parse_with_kind_order "x" ctxN
        [OutputKind.Number, OutputKind.Time] = .ok out ∧
      (∀ m ∈ ms0, ∀ v, m.value = some v → withValue m v ∈ out) ∧
      (∀ m' ∈ out, ∃ m ∈ ms0, m.value = some m'.value) :=
  ⟨by decide,
   parse_swallows_candidate_failures p0 "x" ctxN
     [OutputKind.Number, OutputKind.Time] ms0 (by decide)⟩

/-- Concrete witness for C7: with Ordinal omitted from the order, the
high-scoring ordinal candidate never surfaces. -/
theorem parse_with_kind_order_omits_kind_witness :
    OutputKind.Ordinal ∉ [OutputKind.Number, OutputKind.Time] ∧
    ∀ m ∈ ([out21, outTime107] : List (ParserMatch Output)),
      m.value.kind ≠ OutputKind.Ordinal :=
  ⟨by decide,
   parse_with_kind_order_omits_kind p0 "x" ctx0
     [OutputKind.Number, OutputKind.Time] OutputKind.Ordinal
     [out21, outTime107] (by decide) (by decide)⟩

/-- Concrete witness for C8: two parse calls at the same concrete inputs
yield the same result list. -/
theorem parse_deterministic_witness :
    (Except.ok [out21, outTime107] :
      Except String (List (ParserMatch Output))) = .ok [out21, outTime107] :=
  parse_deterministic p0 "x" ctx0 (.ok [out21, outTime107])
    (.ok [out21, outTime107]) (by decide) (by decide)

/-- Concrete witness for C5: a lower-case spelling of EN is accepted and an
unregistered name is rejected with the unknown-language error. -/
theorem lang_from_str_witness :
    Lang.from_str "en" = .ok .EN ∧
    Lang.from_str "xYz" = .error ("Unknown language " ++ "xYz") :=
  ⟨lang_from_str_case_insensitive_unknown_error.1 "en" (by decide),
   lang_from_str_case_insensitive_unknown_error.2 "xYz"
     (by intro l; cases l; decide)⟩

/-- Concrete witness for C10: the returned integer match carries every
non-value field of its raw counterpart unchanged. -/
theorem parse_preserves_match_frame_witness :
    ∃ m ∈ ms0, m.value = some out21.value ∧
      out21.byte_range = m.byte_range ∧ out21.char_range = m.char_range ∧
      out21.parsing_tree_height = m.parsing_tree_height ∧
      out21.parsing_tree_num_nodes = m.parsing_tree_num_nodes ∧
      out21.probalog = m.probalog ∧ out21.latent = m.latent :=
  parse_preserves_match_frame p0 "x" ctxN [OutputKind.Number, OutputKind.Time]
    ms0 [out21] (by decide) (by decide) out21 (by decide)

end RustlingOntology
